import Mathlib

/-!
Verification of the stock-movement ledger of the
`sistema-inventario-tienda-barrio` repository.

The definitions below are a shallow embedding of the server code in
`src/supabase/functions/server/index.tsx` (the POST /movements route,
the PATCH /products/:id/stock route, and the GET /movements/stats route).

Modelling conventions:
* JavaScript numbers are modelled as exact rationals (`ℚ`): every value the
  routes manipulate (stock levels, quantities) is small enough that IEEE-754
  arithmetic is exact on it, so `+`, `-`, `Math.max`, `<`, `<=` coincide with
  the rational operations.
* Timestamps (`createdAt`, compared in the code via `new Date(x).getTime()`)
  are modelled as integers (epoch milliseconds).
* The key-value store keys `product:{id}`, `user:{id}` are modelled as
  association lists keyed by the id; movement records (whose keys
  `movement:{productId}:{movementId}` are fresh for each write) are modelled
  as a list that grows by one on each accepted movement.
* `m.type` is kept as a `String` (the route validates it to be `"entrada"`
  or `"salida"`, but the statistics code branches on `type === 'entrada'`
  with an `else` branch, so the distinction matters for the aggregator).
-/

/-- Product record (`src/types/inventory.ts`, fields the server routes use). -/
structure Product where
  id : String
  name : String
  category : String
  price : ℚ
  stock : ℚ
  minStock : ℚ
  description : String
  createdAt : Int
  updatedAt : Int
  deriving Repr, DecidableEq

/-- Stock-movement record as built by POST /movements. -/
structure StockMovement where
  id : String
  productId : String
  productName : String
  type : String
  quantity : ℚ
  reason : String
  userId : String
  userName : String
  previousStock : ℚ
  newStock : ℚ
  createdAt : Int
  deriving Repr, DecidableEq

/-- User record (the route only reads `name`). -/
structure UserRec where
  id : String
  name : String
  deriving Repr, DecidableEq

/-- Association-list read, `kv.get`. -/
def kvGet {α : Type} (l : List (String × α)) (k : String) : Option α :=
  (l.find? (fun kv => kv.1 = k)).map (fun kv => kv.2)

/-- Association-list upsert, `kv.set`. -/
def kvSet {α : Type} (l : List (String × α)) (k : String) (v : α) :
    List (String × α) :=
  if l.any (fun kv => kv.1 = k) then
    l.map (fun kv => if kv.1 = k then (k, v) else kv)
  else
    l ++ [(k, v)]

/-- Server state: the slices of the kv store the ledger routes touch. -/
structure ServerState where
  products : List (String × Product)
  movements : List StockMovement
  users : List (String × UserRec)
  deriving Repr, DecidableEq

/-- Body of a POST /movements request (after JSON destructuring). -/
structure MovementRequest where
  productId : String
  type : String
  quantity : ℚ
  reason : String
  deriving Repr, DecidableEq

/-- The error responses of POST /movements, in the order the code checks. -/
inductive MovementError where
  /-- 400 `Missing or invalid required fields: productId, type, quantity
  (must be positive number)` -/
  | invalidInput : MovementError
  /-- 400 `Invalid movement type. Must be "entrada" or "salida"` -/
  | invalidType : MovementError
  /-- 404 `Product not found` -/
  | productNotFound : MovementError
  /-- 404 `User data not found` -/
  | userNotFound : MovementError
  /-- 400 `Stock insuficiente...` with `availableStock` payload -/
  | insufficientStock (availableStock : ℚ) : MovementError
  deriving Repr, DecidableEq

/-- Successful result of POST /movements: the 201 payload plus the state after
the two `kv.set` writes. -/
structure MovementResult where
  movement : StockMovement
  updatedProduct : Product
  newState : ServerState
  deriving Repr, DecidableEq

/-- POST /make-server-81f57c18/movements (index.tsx, "Register stock
movement").  `uid` is the authenticated user id, `mid` the generated movement
id, `now` the current time.  Mirrors the code line by line: field validation,
type validation, product lookup, user lookup, stock computation with the
`Math.max(0, ...)` clamp followed by the insufficient-stock rejection, then
the dual write of the movement record and the updated product. -/
def registerMovement (st : ServerState) (req : MovementRequest)
    (uid : String) (mid : String) (now : Int) :
    Except MovementError MovementResult :=
  -- if (!productId || !type || typeof quantity !== 'number' || quantity <= 0)
  if req.productId = "" ∨ req.type = "" ∨ req.quantity ≤ 0 then
    .error .invalidInput
  -- if (!['entrada', 'salida'].includes(type))
  else if ¬ (req.type = "entrada" ∨ req.type = "salida") then
    .error .invalidType
  else
    match kvGet st.products req.productId with
    | none => .error .productNotFound
    | some product =>
      match kvGet st.users uid with
      | none => .error .userNotFound
      | some userData =>
        let previousStock := product.stock
        if req.type = "entrada" then
          let newStock := previousStock + req.quantity
          let movement : StockMovement :=
            { id := mid, productId := req.productId,
              productName := product.name, type := req.type,
              quantity := req.quantity, reason := req.reason,
              userId := uid, userName := userData.name,
              previousStock := previousStock, newStock := newStock,
              createdAt := now }
          let updatedProduct := { product with stock := newStock, updatedAt := now }
          .ok { movement := movement, updatedProduct := updatedProduct,
                newState :=
                  { st with
                    movements := st.movements ++ [movement],
                    products := kvSet st.products req.productId updatedProduct } }
        else
          -- salida
          let newStock := max 0 (previousStock - req.quantity)
          if previousStock < req.quantity then
            .error (.insufficientStock previousStock)
          else
            let movement : StockMovement :=
              { id := mid, productId := req.productId,
                productName := product.name, type := req.type,
                quantity := req.quantity, reason := req.reason,
                userId := uid, userName := userData.name,
                previousStock := previousStock, newStock := newStock,
                createdAt := now }
            let updatedProduct := { product with stock := newStock, updatedAt := now }
            .ok { movement := movement, updatedProduct := updatedProduct,
                  newState :=
                    { st with
                      movements := st.movements ++ [movement],
                      products := kvSet st.products req.productId updatedProduct } }

/-- PATCH /make-server-81f57c18/products/:id/stock (index.tsx, "Update product
stock"): `newStock = Math.max(0, existingProduct.stock + quantity)`, product
written back, no movement record.  Returns `none` when the product id is
unknown (404). -/
def updateStock (st : ServerState) (id : String) (quantity : ℚ) (now : Int) :
    Option (Product × ServerState) :=
  match kvGet st.products id with
  | none => none
  | some existingProduct =>
    let newStock := max 0 (existingProduct.stock + quantity)
    let updatedProduct := { existingProduct with stock := newStock, updatedAt := now }
    some (updatedProduct, { st with products := kvSet st.products id updatedProduct })

/-- The operations that touch a product's `stock` field. -/
inductive Op where
  | movement (req : MovementRequest) (uid mid : String) (now : Int) : Op
  | patchStock (id : String) (quantity : ℚ) (now : Int) : Op
  deriving Repr, DecidableEq

/-- One request-response step of the server: rejected requests leave the
state unchanged. -/
def step (st : ServerState) (op : Op) : ServerState :=
  match op with
  | .movement req uid mid now =>
    match registerMovement st req uid mid now with
    | .error _ => st
    | .ok r => r.newState
  | .patchStock id quantity now =>
    match updateStock st id quantity now with
    | none => st
    | some (_, st') => st'

/-! ## Statistics aggregator (GET /movements/stats) -/

/-- Stable insertion into a list sorted descending by `createdAt`.  Models one
step of the JavaScript `sort((a, b) => b.getTime() - a.getTime())`, which is
a stable descending sort by `createdAt`. -/
def insertDesc (m : StockMovement) : List StockMovement → List StockMovement
  | [] => [m]
  | x :: xs => if x.createdAt < m.createdAt then m :: x :: xs else x :: insertDesc m xs

/-- Stable descending sort by `createdAt`
(`movements.sort((a, b) => new Date(b.createdAt).getTime() - new Date(a.createdAt).getTime())`). -/
def sortByCreatedAtDesc (ms : List StockMovement) : List StockMovement :=
  ms.foldr insertDesc []

/-- One per-product rollup row of the stats response. -/
structure ProductStat where
  productId : String
  productName : String
  totalEntradas : ℚ
  totalSalidas : ℚ
  movementCount : Nat
  deriving Repr, DecidableEq

/-- `summary` object of the stats response. -/
structure StatsSummary where
  totalMovements : Nat
  totalEntradas : Nat
  totalSalidas : Nat
  totalQuantityEntradas : ℚ
  totalQuantitySalidas : ℚ
  netMovement : ℚ
  recentMovements : Nat
  deriving Repr, DecidableEq

/-- Full GET /movements/stats response body. -/
structure MovementStatistics where
  summary : StatsSummary
  productStats : List ProductStat
  recentActivity : List StockMovement
  deriving Repr, DecidableEq

/-- The fresh accumulator row created when a `productId` is first seen
(`acc[movement.productId] = { ..., totalEntradas: 0, totalSalidas: 0,
movementCount: 0 }`). -/
def statInit (m : StockMovement) : ProductStat :=
  { productId := m.productId, productName := m.productName,
    totalEntradas := 0, totalSalidas := 0, movementCount := 0 }

/-- The in-place update applied to the row of `m.productId`
(`movementCount++` and `totalEntradas += quantity` when
`movement.type === 'entrada'`, else `totalSalidas += quantity`). -/
def statBump (s : ProductStat) (m : StockMovement) : ProductStat :=
  { s with
    movementCount := s.movementCount + 1,
    totalEntradas := if m.type = "entrada" then s.totalEntradas + m.quantity
                     else s.totalEntradas,
    totalSalidas := if m.type = "entrada" then s.totalSalidas
                    else s.totalSalidas + m.quantity }

/-- One iteration of the `movements.reduce` building `productStats`.  A plain
JavaScript object keyed by non-numeric strings enumerates in insertion order,
so it is modelled as a list to which a missing key is appended. -/
def statStep (acc : List ProductStat) (m : StockMovement) : List ProductStat :=
  let acc' := if acc.any (fun s => s.productId = m.productId) then acc
              else acc ++ [statInit m]
  acc'.map (fun s => if s.productId = m.productId then statBump s m else s)

/-- `Object.values(movements.reduce(..., {}))`: the per-product rollup rows in
first-seen order. -/
def productStatsOf (ms : List StockMovement) : List ProductStat :=
  ms.foldl statStep []

/-- GET /make-server-81f57c18/movements/stats (index.tsx).  `sevenDaysAgo` is
the epoch-milliseconds cutoff the code computes from the wall clock; the
recency filter is the strict comparison `new Date(m.createdAt) > sevenDaysAgo`. -/
def computeStatistics (ms : List StockMovement) (sevenDaysAgo : Int) :
    MovementStatistics :=
  let totalMovements := ms.length
  let entradas := ms.filter (fun m => m.type = "entrada")
  let salidas := ms.filter (fun m => m.type = "salida")
  let totalEntradas := entradas.foldl (fun sum m => sum + m.quantity) 0
  let totalSalidas := salidas.foldl (fun sum m => sum + m.quantity) 0
  let recentMovements := ms.filter (fun m => sevenDaysAgo < m.createdAt)
  let productStats := productStatsOf ms
  { summary :=
      { totalMovements := totalMovements,
        totalEntradas := entradas.length,
        totalSalidas := salidas.length,
        totalQuantityEntradas := totalEntradas,
        totalQuantitySalidas := totalSalidas,
        netMovement := totalEntradas - totalSalidas,
        recentMovements := recentMovements.length },
    productStats := productStats,
    recentActivity := (sortByCreatedAtDesc recentMovements).take 10 }

/-- Per-product projection of one `statStep` iteration: how the (at most one)
accumulator row of a fixed `productId` evolves when a movement of that
product arrives. -/
def statChain (cur : List ProductStat) (m : StockMovement) : List ProductStat :=
  (if cur = [] then [statInit m] else cur).map (fun s => statBump s m)

/-! ## Spec-side definitions and concrete data -/

/-- Sum of the `quantity` fields of a list of movements (spec-side reading of
the `reduce((sum, m) => sum + m.quantity, 0)` accumulations). -/
def quantitySum (l : List StockMovement) : ℚ :=
  (l.map (fun m => m.quantity)).sum

/-- The spec's description of `recentActivity`: "sort the full movement list
descending by `createdAt` and take the first 10", with no recency window.
Stated from the spec's words, to be compared with `computeStatistics`. -/
def recentActivityOfFullList (ms : List StockMovement) : List StockMovement :=
  (sortByCreatedAtDesc ms).take 10

/-- A concrete product used by the witnesses (stock 24, as in the spec's
concrete scenarios). -/
def sampleProduct : Product :=
  { id := "1", name := "Arroz", category := "granos", price := 2, stock := 24,
    minStock := 5, description := "", createdAt := 0, updatedAt := 0 }

/-- A concrete product with stock 0 (a non-negative integer stock). -/
def zeroStockProduct : Product :=
  { id := "1", name := "Arroz", category := "granos", price := 2, stock := 0,
    minStock := 5, description := "", createdAt := 0, updatedAt := 0 }

/-- A concrete user record. -/
def sampleUser : UserRec := { id := "u1", name := "Ana" }

/-- A concrete server state holding `sampleProduct` and one user. -/
def sampleState : ServerState :=
  { products := [("1", sampleProduct)], movements := [],
    users := [("u1", sampleUser)] }

/-- The same state with the product at stock 0. -/
def zeroStockState : ServerState :=
  { products := [("1", zeroStockProduct)], movements := [],
    users := [("u1", sampleUser)] }

/-- A concrete entrada request of quantity 10. -/
def entradaReq10 : MovementRequest :=
  { productId := "1", type := "entrada", quantity := 10, reason := "" }

/-- A concrete salida request of quantity 4. -/
def salidaReq4 : MovementRequest :=
  { productId := "1", type := "salida", quantity := 4, reason := "" }

/-- A concrete request with quantity 0 (non-positive). -/
def zeroQtyReq : MovementRequest :=
  { productId := "1", type := "entrada", quantity := 0, reason := "" }

/-- A movement request whose quantity is the positive non-integer 5/2. -/
def halfUnitRequest : MovementRequest :=
  { productId := "1", type := "entrada", quantity := Rat.divInt 5 2, reason := "" }

/-- A concrete movement record (createdAt 0, i.e. older than any positive
cutoff). -/
def oldMovement : StockMovement :=
  { id := "m0", productId := "1", productName := "Arroz", type := "entrada",
    quantity := 10, reason := "", userId := "u1", userName := "Ana",
    previousStock := 24, newStock := 34, createdAt := 0 }

/-- First movement of product "1", recorded under the name "Arroz". -/
def renamedMov1 : StockMovement :=
  { id := "m1", productId := "1", productName := "Arroz", type := "entrada",
    quantity := 10, reason := "", userId := "u1", userName := "Ana",
    previousStock := 0, newStock := 10, createdAt := 100 }

/-- Later movement of the same product, recorded under the new name
"Arroz Blanco". -/
def renamedMov2 : StockMovement :=
  { id := "m2", productId := "1", productName := "Arroz Blanco",
    type := "salida", quantity := 4, reason := "", userId := "u1",
    userName := "Ana", previousStock := 10, newStock := 6, createdAt := 200 }

/-- Two movements of the same product carrying different `productName`
values (the product was renamed in between). -/
def renamedMovements : List StockMovement := [renamedMov1, renamedMov2]

/-! ## Theorems -/

/-- C6: for every product P and every valid entrada of quantity q, the
movement registration succeeds, the updated product's stock is
`P.stock + q`, and the persisted movement record carries
`previousStock = P.stock`, `newStock = P.stock + q`, `type = entrada` and
`quantity = q`; the record and the updated product are both written. -/
theorem entrada_adds_quantity (st : ServerState) (req : MovementRequest)
    (uid mid : String) (now : Int) (P : Product) (u : UserRec)
    (hpid : req.productId ≠ "") (htype : req.type = "entrada")
    (hq : 0 < req.quantity)
    (hP : kvGet st.products req.productId = some P)
    (hu : kvGet st.users uid = some u) :
    ∃ r, registerMovement st req uid mid now = Except.ok r ∧
      r.updatedProduct.stock = P.stock + req.quantity ∧
      r.movement.previousStock = P.stock ∧
      r.movement.newStock = P.stock + req.quantity ∧
      r.movement.type = "entrada" ∧
      r.movement.quantity = req.quantity ∧
      r.newState.movements = st.movements ++ [r.movement] ∧
      r.newState.products = kvSet st.products req.productId r.updatedProduct := by
  have hc1 : ¬(req.productId = "" ∨ req.type = "" ∨ req.quantity ≤ 0) := by
    push_neg
    exact ⟨hpid, by rw [htype]; decide, hq⟩
  have hc2 : ¬¬(req.type = "entrada" ∨ req.type = "salida") :=
    not_not_intro (Or.inl htype)
  simp only [registerMovement, if_neg hc1, if_neg hc2, hP, hu, if_pos htype]
  exact ⟨_, rfl, rfl, rfl, rfl, htype, rfl, rfl, rfl⟩

/-- Witness for C6: entrada of 10 on the sample product at stock 24. -/
theorem entrada_adds_quantity_witness :
    ∃ r, registerMovement sampleState entradaReq10 "u1" "m1" 100 = Except.ok r ∧
      r.updatedProduct.stock = sampleProduct.stock + entradaReq10.quantity ∧
      r.movement.previousStock = sampleProduct.stock ∧
      r.movement.newStock = sampleProduct.stock + entradaReq10.quantity ∧
      r.movement.type = "entrada" ∧
      r.movement.quantity = entradaReq10.quantity ∧
      r.newState.movements = sampleState.movements ++ [r.movement] ∧
      r.newState.products =
        kvSet sampleState.products entradaReq10.productId r.updatedProduct :=
  entrada_adds_quantity sampleState entradaReq10 "u1" "m1" 100 sampleProduct
    sampleUser (by decide) rfl (by decide) rfl rfl

/-- C1: for every product P and salida request of (positive) quantity q
against an existing product and user: when `q ≤ P.stock` the operation
succeeds with `newStock = P.stock - q` and persists the movement record
together with the updated product; when `q > P.stock` it fails with
`InsufficientStock` reporting `availableStock = P.stock`, and the server
state is unchanged (no stock change, no movement record). -/
theorem salida_exact_or_insufficient (st : ServerState) (req : MovementRequest)
    (uid mid : String) (now : Int) (P : Product) (u : UserRec)
    (hpid : req.productId ≠ "") (htype : req.type = "salida")
    (hq : 0 < req.quantity)
    (hP : kvGet st.products req.productId = some P)
    (hu : kvGet st.users uid = some u) :
    (req.quantity ≤ P.stock →
      ∃ r, registerMovement st req uid mid now = Except.ok r ∧
        r.updatedProduct.stock = P.stock - req.quantity ∧
        r.movement.previousStock = P.stock ∧
        r.movement.newStock = P.stock - req.quantity ∧
        r.newState.movements = st.movements ++ [r.movement] ∧
        r.newState.products = kvSet st.products req.productId r.updatedProduct) ∧
    (P.stock < req.quantity →
      registerMovement st req uid mid now =
        Except.error (.insufficientStock P.stock) ∧
      step st (.movement req uid mid now) = st) := by
  have hc1 : ¬(req.productId = "" ∨ req.type = "" ∨ req.quantity ≤ 0) := by
    push_neg
    exact ⟨hpid, by rw [htype]; decide, hq⟩
  have hc2 : ¬¬(req.type = "entrada" ∨ req.type = "salida") :=
    not_not_intro (Or.inr htype)
  have hcE : ¬ req.type = "entrada" := by rw [htype]; decide
  constructor
  · intro hle
    have hlt : ¬ P.stock < req.quantity := not_lt.mpr hle
    simp only [registerMovement, if_neg hc1, if_neg hc2, hP, hu, if_neg hcE,
      if_neg hlt]
    refine ⟨_, rfl, ?_, rfl, ?_, rfl, rfl⟩
    · exact sup_eq_right.mpr (sub_nonneg.mpr hle)
    · exact sup_eq_right.mpr (sub_nonneg.mpr hle)
  · intro hgt
    have herr : registerMovement st req uid mid now =
        Except.error (.insufficientStock P.stock) := by
      simp only [registerMovement, if_neg hc1, if_neg hc2, hP, hu, if_neg hcE,
        if_pos hgt]
    exact ⟨herr, by simp [step, herr]⟩

/-- Witness for C1: salida of 4 on the sample product at stock 24. -/
theorem salida_exact_or_insufficient_witness :
    (salidaReq4.quantity ≤ sampleProduct.stock →
      ∃ r, registerMovement sampleState salidaReq4 "u1" "m1" 100 =
          Except.ok r ∧
        r.updatedProduct.stock = sampleProduct.stock - salidaReq4.quantity ∧
        r.movement.previousStock = sampleProduct.stock ∧
        r.movement.newStock = sampleProduct.stock - salidaReq4.quantity ∧
        r.newState.movements = sampleState.movements ++ [r.movement] ∧
        r.newState.products =
          kvSet sampleState.products salidaReq4.productId r.updatedProduct) ∧
    (sampleProduct.stock < salidaReq4.quantity →
      registerMovement sampleState salidaReq4 "u1" "m1" 100 =
        Except.error (.insufficientStock sampleProduct.stock) ∧
      step sampleState (.movement salidaReq4 "u1" "m1" 100) = sampleState) :=
  salida_exact_or_insufficient sampleState salidaReq4 "u1" "m1" 100
    sampleProduct sampleUser (by decide) rfl (by decide) rfl rfl

/-- C9: on the primary movement-registration path an accepted salida is never
silently clamped: when `q ≤ P.stock` the internal
`Math.max(0, previousStock - quantity)` clamp has no effect and the
persisted stock is exactly `P.stock - q`. -/
theorem accepted_salida_never_clamped (st : ServerState)
    (req : MovementRequest) (uid mid : String) (now : Int) (P : Product)
    (u : UserRec)
    (hpid : req.productId ≠ "") (htype : req.type = "salida")
    (hq : 0 < req.quantity)
    (hP : kvGet st.products req.productId = some P)
    (hu : kvGet st.users uid = some u)
    (hle : req.quantity ≤ P.stock) :
    max 0 (P.stock - req.quantity) = P.stock - req.quantity ∧
    ∃ r, registerMovement st req uid mid now = Except.ok r ∧
      r.updatedProduct.stock = P.stock - req.quantity ∧
      r.movement.newStock = P.stock - req.quantity := by
  have hclamp : max 0 (P.stock - req.quantity) = P.stock - req.quantity :=
    max_eq_right (sub_nonneg.mpr hle)
  have hc1 : ¬(req.productId = "" ∨ req.type = "" ∨ req.quantity ≤ 0) := by
    push_neg
    exact ⟨hpid, by rw [htype]; decide, hq⟩
  have hc2 : ¬¬(req.type = "entrada" ∨ req.type = "salida") :=
    not_not_intro (Or.inr htype)
  have hcE : ¬ req.type = "entrada" := by rw [htype]; decide
  have hlt : ¬ P.stock < req.quantity := not_lt.mpr hle
  refine ⟨hclamp, ?_⟩
  simp only [registerMovement, if_neg hc1, if_neg hc2, hP, hu, if_neg hcE,
    if_neg hlt]
  exact ⟨_, rfl, hclamp, hclamp⟩

/-- Witness for C9: salida of 4 at stock 24 is not clamped. -/
theorem accepted_salida_never_clamped_witness :
    max 0 (sampleProduct.stock - salidaReq4.quantity) =
      sampleProduct.stock - salidaReq4.quantity ∧
    ∃ r, registerMovement sampleState salidaReq4 "u1" "m1" 100 =
        Except.ok r ∧
      r.updatedProduct.stock = sampleProduct.stock - salidaReq4.quantity ∧
      r.movement.newStock = sampleProduct.stock - salidaReq4.quantity :=
  accepted_salida_never_clamped sampleState salidaReq4 "u1" "m1" 100
    sampleProduct sampleUser (by decide) rfl (by decide) rfl rfl (by decide)

/-- Counterexample to C2 as stated: quantity 5/2 is positive and not an
integer, yet the request is accepted (it is not rejected with
`InvalidInput`, nor at all). -/
theorem nonint_quantity_accepted_cex :
    (Rat.divInt 5 2).den ≠ 1 ∧ 0 < Rat.divInt 5 2 ∧
    (registerMovement sampleState halfUnitRequest "u1" "m1" 100).isOk = true := by
  decide

/-- C2 (amended): the movement registration fails with `InvalidInput` exactly
on the code's validation — missing productId, missing type, or quantity that
is not a positive number; positive non-integer quantities pass validation.
On that failure no state changes. -/
theorem invalid_quantity_rejected (st : ServerState) (req : MovementRequest)
    (uid mid : String) (now : Int)
    (h : req.productId = "" ∨ req.type = "" ∨ req.quantity ≤ 0) :
    registerMovement st req uid mid now = Except.error .invalidInput ∧
    step st (.movement req uid mid now) = st := by
  have h1 : registerMovement st req uid mid now = Except.error .invalidInput := by
    unfold registerMovement
    rw [if_pos h]
  exact ⟨h1, by simp [step, h1]⟩

/-- Witness for amended C2: quantity 0 is rejected and changes nothing. -/
theorem invalid_quantity_rejected_witness :
    registerMovement sampleState zeroQtyReq "u1" "m1" 100 =
      Except.error .invalidInput ∧
    step sampleState (.movement zeroQtyReq "u1" "m1" 100) = sampleState :=
  invalid_quantity_rejected sampleState zeroQtyReq "u1" "m1" 100
    (Or.inr (Or.inr (by decide)))

/-- A left fold accumulating `+ quantity` computes `quantitySum`. -/
theorem foldl_add_eq_quantitySum (l : List StockMovement) (a : ℚ) :
    l.foldl (fun s m => s + m.quantity) a = a + quantitySum l := by
  induction l generalizing a with
  | nil => simp [quantitySum]
  | cons m l ih => simp [quantitySum, ih, List.map_cons, List.sum_cons]; ring

/-- C7: the statistics summary reports
`totalQuantityEntradas = sum of entrada quantities`,
`totalQuantitySalidas = sum of salida quantities`, and
`netMovement` equal to their difference. -/
theorem summary_net_is_sum_difference (ms : List StockMovement) (t : Int) :
    (computeStatistics ms t).summary.totalQuantityEntradas =
      quantitySum (ms.filter (fun m => m.type = "entrada")) ∧
    (computeStatistics ms t).summary.totalQuantitySalidas =
      quantitySum (ms.filter (fun m => m.type = "salida")) ∧
    (computeStatistics ms t).summary.netMovement =
      quantitySum (ms.filter (fun m => m.type = "entrada")) -
        quantitySum (ms.filter (fun m => m.type = "salida")) := by
  simp [computeStatistics, foldl_add_eq_quantitySum]

/-- Counterexample to C3 as stated: a movement older than the 7-day cutoff is
among the 10 most recent movements of the full list but is excluded from
`recentActivity`, so `recentActivity` is not the window-independent top 10 of
the full movement list. -/
theorem recentActivity_not_full_list_cex :
    (computeStatistics [oldMovement] 100).recentActivity ≠
      recentActivityOfFullList [oldMovement] := by
  decide

/-- Membership in a stable descending insertion. -/
theorem mem_insertDesc (m a : StockMovement) (l : List StockMovement) :
    a ∈ insertDesc m l ↔ a = m ∨ a ∈ l := by
  induction l with
  | nil => simp [insertDesc]
  | cons x xs ih =>
    simp only [insertDesc]
    split
    · simp [List.mem_cons]
    · simp [List.mem_cons, ih]
      tauto

/-- Inserting into a descending-sorted list keeps it descending-sorted. -/
theorem pairwise_insertDesc (m : StockMovement) (l : List StockMovement)
    (h : l.Pairwise (fun a b => b.createdAt ≤ a.createdAt)) :
    (insertDesc m l).Pairwise (fun a b => b.createdAt ≤ a.createdAt) := by
  induction l with
  | nil => simp [insertDesc]
  | cons x xs ih =>
    rw [List.pairwise_cons] at h
    obtain ⟨hx, hxs⟩ := h
    simp only [insertDesc]
    split
    · rename_i h1
      refine List.Pairwise.cons ?_ (List.Pairwise.cons hx hxs)
      intro b hb
      rcases List.mem_cons.mp hb with rfl | hb
      · exact le_of_lt h1
      · exact (hx b hb).trans (le_of_lt h1)
    · rename_i h1
      refine List.Pairwise.cons ?_ (ih hxs)
      intro b hb
      rcases (mem_insertDesc m b xs).mp hb with rfl | hb
      · exact not_lt.mp h1
      · exact hx b hb

/-- The descending sort has the same members as its input. -/
theorem mem_sortByCreatedAtDesc (a : StockMovement) (l : List StockMovement) :
    a ∈ sortByCreatedAtDesc l ↔ a ∈ l := by
  induction l with
  | nil => simp [sortByCreatedAtDesc]
  | cons x xs ih =>
    simp only [sortByCreatedAtDesc, List.foldr_cons] at *
    rw [mem_insertDesc, ih, List.mem_cons]

/-- The descending sort is sorted descending by `createdAt`. -/
theorem pairwise_sortByCreatedAtDesc (l : List StockMovement) :
    (sortByCreatedAtDesc l).Pairwise (fun a b => b.createdAt ≤ a.createdAt) := by
  induction l with
  | nil => simp [sortByCreatedAtDesc]
  | cons x xs ih =>
    simp only [sortByCreatedAtDesc, List.foldr_cons] at *
    exact pairwise_insertDesc x _ ih

/-- C3 (amended): `recentActivity` is the first 10 of the movements inside
the trailing 7-day window — not of the full list — sorted descending by
`createdAt`: it equals the windowed top 10, is sorted newest-first, contains
only movements newer than the cutoff, and has at most 10 entries. -/
theorem recentActivity_is_windowed_top10 (ms : List StockMovement) (t : Int) :
    (computeStatistics ms t).recentActivity =
      (sortByCreatedAtDesc (ms.filter (fun m => t < m.createdAt))).take 10 ∧
    List.Pairwise (fun a b => b.createdAt ≤ a.createdAt)
      (computeStatistics ms t).recentActivity ∧
    (∀ m ∈ (computeStatistics ms t).recentActivity,
      t < m.createdAt ∧ m ∈ ms) ∧
    (computeStatistics ms t).recentActivity.length ≤ 10 := by
  refine ⟨rfl, ?_, ?_, ?_⟩
  · exact List.Pairwise.sublist (List.take_sublist _ _)
      (pairwise_sortByCreatedAtDesc _)
  · intro m hm
    have hm' := List.mem_of_mem_take hm
    have hm'' := (mem_sortByCreatedAtDesc _ _).mp hm'
    have := List.mem_filter.mp hm''
    exact ⟨by simpa using this.2, this.1⟩
  · exact List.length_take_le _ _

/-- An element of `kvSet l k v` is the written pair or an element of `l`. -/
theorem mem_kvSet {α : Type} (l : List (String × α)) (k : String) (v : α)
    (kv : String × α) (h : kv ∈ kvSet l k v) : kv = (k, v) ∨ kv ∈ l := by
  unfold kvSet at h
  split at h
  · obtain ⟨a, ha, rfl⟩ := List.mem_map.mp h
    split
    · exact Or.inl rfl
    · exact Or.inr ha
  · rcases List.mem_append.mp h with h' | h'
    · exact Or.inr h'
    · simp at h'
      exact Or.inl h'

/-- A successful `kvGet` returns a stored pair. -/
theorem kvGet_mem {α : Type} (l : List (String × α)) (k : String) (v : α)
    (h : kvGet l k = some v) : (k, v) ∈ l := by
  unfold kvGet at h
  obtain ⟨kv, hfind, rfl⟩ :
      ∃ kv, l.find? (fun kv => kv.1 = k) = some kv ∧ kv.2 = v := by
    cases hf : l.find? (fun kv => kv.1 = k) with
    | none => rw [hf] at h; cases h
    | some kv => rw [hf] at h; exact ⟨kv, rfl, by injection h⟩
  have hmem := List.mem_of_find?_eq_some hfind
  have hk := List.find?_some hfind
  simp at hk
  rwa [show (k, kv.2) = kv by rw [← hk]]

/-- Structure of every accepted movement registration: the product existed,
the quantity passed validation, exactly one movement record is appended, the
product list receives the updated product, and the new stock is either the
entrada sum or the clamped salida difference. -/
theorem registerMovement_ok {st : ServerState} {req : MovementRequest}
    {uid mid : String} {now : Int} {r : MovementResult}
    (h : registerMovement st req uid mid now = Except.ok r) :
    ∃ P, kvGet st.products req.productId = some P ∧
      0 < req.quantity ∧
      r.newState.movements = st.movements ++ [r.movement] ∧
      r.newState.products = kvSet st.products req.productId r.updatedProduct ∧
      r.newState.users = st.users ∧
      (r.updatedProduct.stock = P.stock + req.quantity ∨
        r.updatedProduct.stock = max 0 (P.stock - req.quantity)) := by
  unfold registerMovement at h
  split at h
  next => cases h
  next hval =>
    push_neg at hval
    split at h
    next => cases h
    next =>
      split at h
      next => cases h
      next P hP =>
        split at h
        next => cases h
        next u hu =>
          split at h
          next =>
            cases h
            exact ⟨P, hP, hval.2.2, rfl, rfl, rfl, Or.inl rfl⟩
          next =>
            dsimp only at h
            split at h
            next => cases h
            next =>
              cases h
              exact ⟨P, hP, hval.2.2, rfl, rfl, rfl, Or.inr rfl⟩

/-- Structure of every accepted direct stock update: the product existed, the
stock is clamped at zero, the product list is updated, and no movement record
is written. -/
theorem updateStock_some {st : ServerState} {id : String} {q : ℚ} {now : Int}
    {p : Product} {st' : ServerState}
    (h : updateStock st id q now = some (p, st')) :
    ∃ P, kvGet st.products id = some P ∧
      p.stock = max 0 (P.stock + q) ∧
      st'.products = kvSet st.products id p ∧
      st'.movements = st.movements := by
  unfold updateStock at h
  split at h
  · cases h
  · rename_i P hP
    cases h
    exact ⟨P, hP, rfl, rfl, rfl⟩

/-- Counterexample to C4 as stated: the direct stock-update endpoint
(PATCH /products/:id/stock) changes a product's stock (24 to 27) while
appending no movement record, so not every stock change is accompanied by a
ledger entry. -/
theorem patch_stock_changes_without_record_cex :
    (step sampleState (Op.patchStock "1" 3 100)).movements =
      sampleState.movements ∧
    (kvGet (step sampleState (Op.patchStock "1" 3 100)).products "1").map
        Product.stock ≠
      (kvGet sampleState.products "1").map Product.stock := by
  constructor
  · rfl
  · show some (max 0 (sampleProduct.stock + 3)) ≠ some sampleProduct.stock
    simp [sampleProduct]
    norm_num

/-- C4 (amended): stock mutations through the Movement Engine always append
exactly one movement record (or leave the state fully unchanged on
rejection), while the direct stock-update endpoint never appends one — it
changes stock outside the ledger. -/
theorem stock_mutation_ledger_discipline :
    (∀ st req uid mid now,
      step st (Op.movement req uid mid now) = st ∨
      ∃ m, (step st (Op.movement req uid mid now)).movements =
        st.movements ++ [m]) ∧
    (∀ st id q now,
      (step st (Op.patchStock id q now)).movements = st.movements) := by
  constructor
  · intro st req uid mid now
    cases hcase : registerMovement st req uid mid now with
    | error e => left; simp [step, hcase]
    | ok r =>
      right
      obtain ⟨P, hP, hq, hmov, _⟩ := registerMovement_ok hcase
      exact ⟨r.movement, by simp [step, hcase, hmov]⟩
  · intro st id q now
    cases hcase : updateStock st id q now with
    | none => simp [step, hcase]
    | some pr =>
      obtain ⟨p, st'⟩ := pr
      obtain ⟨P, hP, _, _, hmov⟩ := updateStock_some hcase
      simp [step, hcase, hmov]

/-- Counterexample to C5 as stated: starting from stock 0 (a non-negative
integer), the accepted entrada of quantity 5/2 leaves stock 5/2, which is not
an integer — integrality of stock is not preserved by every accepted
operation. -/
theorem stock_integrality_not_preserved_cex :
    zeroStockProduct.stock.den = 1 ∧ 0 ≤ zeroStockProduct.stock ∧
    0 < halfUnitRequest.quantity ∧
    (registerMovement zeroStockState halfUnitRequest "u1" "m1" 100).toOption.map
        (fun r => r.updatedProduct.stock) = some (Rat.divInt 5 2) ∧
    (Rat.divInt 5 2).den ≠ 1 := by
  refine ⟨by decide, by decide, by decide, ?_, by decide⟩
  show some (zeroStockProduct.stock + halfUnitRequest.quantity) =
    some (Rat.divInt 5 2)
  norm_num [zeroStockProduct, halfUnitRequest]

/-- C5 (amended): stock non-negativity is an invariant — if every stored
product has non-negative stock, then after any movement registration or
direct stock update every stored product still has non-negative stock
(integrality, by the counterexample, is not preserved). -/
theorem stock_nonneg_preserved (st : ServerState) (op : Op)
    (h : ∀ kv ∈ st.products, 0 ≤ kv.2.stock) :
    ∀ kv ∈ (step st op).products, 0 ≤ kv.2.stock := by
  cases op with
  | movement req uid mid now =>
    cases hcase : registerMovement st req uid mid now with
    | error e => simpa [step, hcase] using h
    | ok r =>
      obtain ⟨P, hP, hq, _, hprod, _, hstock⟩ := registerMovement_ok hcase
      intro kv hkv
      rw [show step st (.movement req uid mid now) = r.newState by
        simp [step, hcase]] at hkv
      rw [hprod] at hkv
      rcases mem_kvSet _ _ _ _ hkv with rfl | hmem
      · have hP0 : 0 ≤ P.stock := h _ (kvGet_mem _ _ _ hP)
        rcases hstock with hs | hs
        · simpa [hs] using add_nonneg hP0 (le_of_lt hq)
        · simp [hs]
      · exact h kv hmem
  | patchStock id q now =>
    cases hcase : updateStock st id q now with
    | none => simpa [step, hcase] using h
    | some pr =>
      obtain ⟨p, st'⟩ := pr
      obtain ⟨P, hP, hstock, hprod, _⟩ := updateStock_some hcase
      intro kv hkv
      rw [show step st (.patchStock id q now) = st' by simp [step, hcase]] at hkv
      rw [hprod] at hkv
      rcases mem_kvSet _ _ _ _ hkv with rfl | hmem
      · simp [hstock]
      · exact h kv hmem

/-- Witness for amended C5: the sample state has non-negative stocks and the
invariant survives a concrete salida. -/
theorem stock_nonneg_preserved_witness :
    ((step sampleState (Op.movement salidaReq4 "u1" "m1" 100)).products.all
      (fun kv => decide (0 ≤ kv.2.stock))) = true := by
  have h := stock_nonneg_preserved sampleState
    (Op.movement salidaReq4 "u1" "m1" 100) (by decide)
  rw [List.all_eq_true]
  intro kv hkv
  exact decide_eq_true (h kv hkv)

/-- Filtering a `statStep` result to one `productId`: movements of other
products leave the row unchanged; a movement of this product either bumps the
existing row or creates and bumps a fresh one. -/
theorem filter_statStep (acc : List ProductStat) (m : StockMovement)
    (pid : String) :
    (statStep acc m).filter (fun s => s.productId = pid) =
      if m.productId = pid then
        statChain (acc.filter (fun s => s.productId = pid)) m
      else acc.filter (fun s => s.productId = pid) := by
  unfold statStep statChain
  set f := fun s : ProductStat =>
    if s.productId = m.productId then statBump s m else s with hf
  have hpres : ∀ s : ProductStat, (f s).productId = s.productId := by
    intro s
    show ((if s.productId = m.productId then statBump s m else s).productId) =
      s.productId
    split <;> rfl
  have hcomm : ∀ l : List ProductStat,
      (l.map f).filter (fun s => s.productId = pid) =
        (l.filter (fun s => s.productId = pid)).map f := by
    intro l
    induction l with
    | nil => rfl
    | cons x xs ih =>
      simp only [List.map_cons, List.filter_cons, hpres x, ih]
      by_cases hx : x.productId = pid
      · simp [hx, hpres x]
      · simp [hx, hpres x]
  have hmapid : ¬ m.productId = pid →
      (acc.filter (fun s => s.productId = pid)).map f =
        acc.filter (fun s => s.productId = pid) := by
    intro hm
    calc (acc.filter (fun s => s.productId = pid)).map f
        = (acc.filter (fun s => s.productId = pid)).map id := by
          apply List.map_congr_left
          intro s hs
          have h2 := List.mem_filter.mp hs
          simp only [decide_eq_true_eq] at h2
          show (if s.productId = m.productId then statBump s m else s) = s
          rw [if_neg (by rw [h2.2]; exact fun hc => hm hc.symm)]
      _ = acc.filter (fun s => s.productId = pid) := List.map_id _
  by_cases hany : acc.any (fun s => s.productId = m.productId)
  · rw [if_pos hany, hcomm]
    by_cases hm : m.productId = pid
    · rw [if_pos hm]
      have hne : ¬ acc.filter (fun s => s.productId = pid) = [] := by
        rw [List.any_eq_true] at hany
        obtain ⟨x, hx, hxe⟩ := hany
        simp only [decide_eq_true_eq] at hxe
        intro hnil
        have hmem : x ∈ acc.filter (fun s => s.productId = pid) :=
          List.mem_filter.mpr ⟨hx, by simp [hxe, hm]⟩
        simp [hnil] at hmem
      rw [if_neg hne]
      apply List.map_congr_left
      intro s hs
      have h2 := List.mem_filter.mp hs
      simp only [decide_eq_true_eq] at h2
      show (if s.productId = m.productId then statBump s m else s) = statBump s m
      rw [if_pos (by rw [h2.2]; exact hm.symm)]
    · rw [if_neg hm]
      exact hmapid hm
  · rw [if_neg hany, hcomm, List.filter_append]
    by_cases hm : m.productId = pid
    · have hnil : acc.filter (fun s => s.productId = pid) = [] := by
        rw [List.filter_eq_nil_iff]
        intro x hx
        simp only [decide_eq_true_eq]
        intro hxe
        rw [List.any_eq_true] at hany
        exact hany ⟨x, hx, by simp [hxe, hm]⟩
      rw [if_pos hm, hnil]
      simp only [List.map_append, List.nil_append, List.filter_cons]
      rw [if_pos (by simp [statInit, hm])]
      simp [hf, statInit, List.filter_nil]
    · rw [if_neg hm]
      have hnil2 : ([statInit m]).filter (fun s => s.productId = pid) = [] := by
        simp [statInit, hm]
      rw [List.map_append, hnil2]
      simp only [List.map_nil, List.append_nil]
      exact hmapid hm

/-- The per-product projection of the whole rollup fold. -/
theorem filter_foldl_statStep (ms : List StockMovement)
    (acc : List ProductStat) (pid : String) :
    (ms.foldl statStep acc).filter (fun s => s.productId = pid) =
      (ms.filter (fun m => m.productId = pid)).foldl statChain
        (acc.filter (fun s => s.productId = pid)) := by
  induction ms generalizing acc with
  | nil => rfl
  | cons m ms ih =>
    simp only [List.foldl_cons, List.filter_cons]
    rw [ih, filter_statStep]
    by_cases hm : m.productId = pid
    · simp [hm]
    · simp [hm]

/-- Once a row exists, the per-product chain just keeps bumping it. -/
theorem foldl_statChain_singleton (l : List StockMovement) (s : ProductStat) :
    l.foldl statChain [s] = [l.foldl statBump s] := by
  induction l generalizing s with
  | nil => rfl
  | cons m l ih =>
    simp only [List.foldl_cons]
    rw [show statChain [s] m = [statBump s m] from by simp [statChain]]
    exact ih _

/-- Field-by-field effect of bumping a row with a list of movements. -/
theorem foldl_statBump_fields (l : List StockMovement) (s : ProductStat) :
    (l.foldl statBump s).productId = s.productId ∧
    (l.foldl statBump s).productName = s.productName ∧
    (l.foldl statBump s).movementCount = s.movementCount + l.length ∧
    (l.foldl statBump s).totalEntradas =
      s.totalEntradas + quantitySum (l.filter (fun m => m.type = "entrada")) ∧
    (l.foldl statBump s).totalSalidas =
      s.totalSalidas +
        quantitySum (l.filter (fun m => ¬ m.type = "entrada")) := by
  induction l generalizing s with
  | nil => simp [quantitySum]
  | cons m l ih =>
    obtain ⟨h1, h2, h3, h4, h5⟩ := ih (statBump s m)
    simp only [List.foldl_cons, List.filter_cons]
    by_cases hm : m.type = "entrada"
    · refine ⟨h1, h2, by rw [h3]; simp [statBump]; omega, ?_, ?_⟩
      · rw [h4]
        simp [statBump, hm, quantitySum]
        ring
      · rw [h5]
        simp [statBump, hm, quantitySum]
    · refine ⟨h1, h2, by rw [h3]; simp [statBump]; omega, ?_, ?_⟩
      · rw [h4]
        simp [statBump, hm, quantitySum]
      · rw [h5]
        simp [statBump, hm, quantitySum]
        ring

/-- C8: every `productId` occurring in the movement set appears exactly once
in `productStats`, with `movementCount` the number of that product's
movements, `totalEntradas` the sum of its entrada quantities, and
`totalSalidas` the sum of its non-entrada quantities. -/
theorem productStats_rollup (ms : List StockMovement) (t : Int) (pid : String)
    (h : pid ∈ ms.map (fun m => m.productId)) :
    ∃ s, ((computeStatistics ms t).productStats).filter
        (fun s => s.productId = pid) = [s] ∧
      s.productId = pid ∧
      s.movementCount = (ms.filter (fun m => m.productId = pid)).length ∧
      s.totalEntradas = quantitySum
        ((ms.filter (fun m => m.productId = pid)).filter
          (fun m => m.type = "entrada")) ∧
      s.totalSalidas = quantitySum
        ((ms.filter (fun m => m.productId = pid)).filter
          (fun m => ¬ m.type = "entrada")) := by
  have hps : (computeStatistics ms t).productStats = productStatsOf ms := rfl
  rw [hps]
  unfold productStatsOf
  rw [filter_foldl_statStep ms [] pid]
  obtain ⟨mx, hmx, hmxe⟩ := List.mem_map.mp h
  cases hfil : ms.filter (fun m => m.productId = pid) with
  | nil =>
    exfalso
    have hmem : mx ∈ ms.filter (fun m => m.productId = pid) :=
      List.mem_filter.mpr ⟨hmx, by simp [hmxe]⟩
    rw [hfil] at hmem
    simp at hmem
  | cons m rest =>
    have hmpid : m.productId = pid := by
      have hmem : m ∈ ms.filter (fun m => m.productId = pid) := by
        rw [hfil]
        exact List.mem_cons_self m rest
      have := List.mem_filter.mp hmem
      simpa using this.2
    rw [List.foldl_cons,
      show statChain (List.filter (fun s => s.productId = pid) []) m =
        [statBump (statInit m) m] from by simp [statChain],
      foldl_statChain_singleton]
    obtain ⟨f1, f2, f3, f4, f5⟩ :=
      foldl_statBump_fields rest (statBump (statInit m) m)
    refine ⟨_, rfl, ?_, ?_, ?_, ?_⟩
    · rw [f1]
      simp [statBump, statInit, hmpid]
    · rw [f3]
      simp [statBump, statInit]
      omega
    · rw [f4]
      by_cases hm : m.type = "entrada" <;>
        simp [statBump, statInit, hm, quantitySum, List.filter_cons]
    · rw [f5]
      by_cases hm : m.type = "entrada" <;>
        simp [statBump, statInit, hm, quantitySum, List.filter_cons]

/-- Witness for C8: product "1" of the two-movement sample rolls up to one
row with the counted and summed fields. -/
theorem productStats_rollup_witness :
    ∃ s, ((computeStatistics renamedMovements 0).productStats).filter
        (fun s => s.productId = "1") = [s] ∧
      s.productId = "1" ∧
      s.movementCount =
        (renamedMovements.filter (fun m => m.productId = "1")).length ∧
      s.totalEntradas = quantitySum
        ((renamedMovements.filter (fun m => m.productId = "1")).filter
          (fun m => m.type = "entrada")) ∧
      s.totalSalidas = quantitySum
        ((renamedMovements.filter (fun m => m.productId = "1")).filter
          (fun m => ¬ m.type = "entrada")) :=
  productStats_rollup renamedMovements 0 "1" (by decide)

/-- C10: the `productName` of a per-product rollup row is the one carried by
the first movement of that product in input order — later movements (even
with a different name after a rename) never update it. -/
theorem productStats_name_from_first (ms : List StockMovement) (t : Int)
    (pid : String) (m : StockMovement) (rest : List StockMovement)
    (hfil : ms.filter (fun x => x.productId = pid) = m :: rest) :
    ∃ s, ((computeStatistics ms t).productStats).filter
        (fun s => s.productId = pid) = [s] ∧
      s.productName = m.productName := by
  have hps : (computeStatistics ms t).productStats = productStatsOf ms := rfl
  rw [hps]
  unfold productStatsOf
  rw [filter_foldl_statStep ms [] pid, hfil, List.foldl_cons,
    show statChain (List.filter (fun s => s.productId = pid) []) m =
      [statBump (statInit m) m] from by simp [statChain],
    foldl_statChain_singleton]
  obtain ⟨f1, f2, f3, f4, f5⟩ :=
    foldl_statBump_fields rest (statBump (statInit m) m)
  exact ⟨_, rfl, by rw [f2]; simp [statBump, statInit]⟩

/-- Witness for C10: with a rename between the two movements of product "1",
the rollup row keeps the first name ("Arroz"), not the later
"Arroz Blanco". -/
theorem productStats_name_from_first_witness :
    ∃ s, ((computeStatistics renamedMovements 0).productStats).filter
        (fun s => s.productId = "1") = [s] ∧
      s.productName = renamedMov1.productName :=
  productStats_name_from_first renamedMovements 0 "1" renamedMov1
    [renamedMov2] (by decide)
